import Mathlib

/-!
Verification of the storage-callback notification layer of openraft
(`openraft/src/storage/callback.rs`) as a shallow embedding in Lean 4.

The two completion handles `LogFlushed` and `LogApplied` are translated
directly from the Rust source.  The tokio oneshot channel is modelled by
`OneshotSender`: a sender endpoint that records the messages it attempted
to send and the messages actually handed to a live receiver.  Tracing
calls (`tracing::error!` and `tracing::debug!`) are modelled as emitted
log events carrying a level.  Rust consumes a handle on invocation
(`self` by value); in the embedding, invocation is a function from the
handle to an outcome record that does not contain the handle, and sending
on the channel consumes the sender, which only reappears inside the
outcome.

`LogIOId` itself and the consensus-core frontier logic live outside the
given sources, so they are modelled from the specification text
(lexicographic order on epoch then index; compare-and-merge frontier
updates that reject stale epochs).
-/

/-- Modelled from the spec: `LogIOId` (defined in
`raft_state/io_state/log_io_id.rs`, which is not among the given sources)
stamps a log-persistence request with the leadership epoch and the log
index.  The spec describes the epoch as an abstract totally ordered stamp;
it is modelled as a natural number. -/
structure LogIOId where
  epoch : Nat
  index : Nat
deriving DecidableEq, Repr

/-- Modelled from the spec: strict lexicographic order on `LogIOId`,
primarily by epoch, then by index. -/
def LogIOId.lt (a b : LogIOId) : Prop :=
  a.epoch < b.epoch ∨ (a.epoch = b.epoch ∧ a.index < b.index)

instance : LT LogIOId :=
  ⟨LogIOId.lt⟩

instance (a b : LogIOId) : Decidable (LogIOId.lt a b) := by
  unfold LogIOId.lt
  exact inferInstance

/-- Severity of an emitted trace event, mirroring `tracing::debug!` and
`tracing::error!` in the source. -/
inductive LogLevel where
  | debug : LogLevel
  | error : LogLevel
deriving DecidableEq, Repr

/-- Model of a `tokio::sync::oneshot::Sender`.  `receiverAlive` says
whether the receiving end still exists; `attempts` records every message
a `send` was called with, and `delivered` the messages that reached a
live receiver.  A freshly created channel has no traffic. -/
structure OneshotSender (M : Type) where
  receiverAlive : Bool
  attempts : List M
  delivered : List M

/-- A fresh oneshot sender with no messages yet. -/
def OneshotSender.fresh (alive : Bool) (M : Type) : OneshotSender M :=
  ⟨alive, [], []⟩

/-- `tokio::sync::oneshot::Sender::send`: consumes the sender; delivers
the message when the receiver is alive, otherwise returns the message
back as the error value.  The updated sender state is returned only so
the outcome can be inspected; the source can never call `send` twice
because `send` takes the sender by value. -/
def OneshotSender.send (tx : OneshotSender M) (m : M) : OneshotSender M × Except M Unit :=
  if tx.receiverAlive then
    (⟨tx.receiverAlive, tx.attempts ++ [m], tx.delivered ++ [m]⟩, Except.ok ())
  else
    (⟨tx.receiverAlive, tx.attempts ++ [m], tx.delivered⟩, Except.error m)

/-- Trace events emitted by `LogFlushed::log_io_completed`:
`flushError e id` is the `tracing::error!("LogFlush error: {}, while
flushing upto {}", e, self.log_io_id)` line, and `sendFailed m` is the
`tracing::error!("failed to send log io completion event: {:?}", e)`
line, which prints the undelivered message. -/
inductive FlushLogEvent (E : Type) where
  | flushError (e : E) (id : LogIOId) : FlushLogEvent E
  | sendFailed (m : Except E LogIOId) : FlushLogEvent E

/-- Both flush-side trace lines use `tracing::error!`. -/
def FlushLogEvent.level : FlushLogEvent E → LogLevel
  | .flushError _ _ => .error
  | .sendFailed _ => .error

/-- Recognises the delivery-failure log line. -/
def FlushLogEvent.isSendFailed : FlushLogEvent E → Bool
  | .sendFailed _ => true
  | _ => false

/-- `LogFlushed<C>`: a oneshot callback for completion of a log io
operation, holding the bound `log_io_id` and the sender `tx` of type
`Result<LogIOId, io::Error>`.  The io error type is the parameter `E`. -/
structure LogFlushed (E : Type) where
  log_io_id : LogIOId
  tx : OneshotSender (Except E LogIOId)

/-- `LogFlushed::new`. -/
def LogFlushed.new (log_io_id : LogIOId) (tx : OneshotSender (Except E LogIOId)) :
    LogFlushed E :=
  ⟨log_io_id, tx⟩

/-- Everything observable about one invocation of `log_io_completed`:
the final channel state and the emitted trace events, in order.  The
handle itself is consumed and does not reappear. -/
structure FlushOutcome (E : Type) where
  tx : OneshotSender (Except E LogIOId)
  logs : List (FlushLogEvent E)

/-- `LogFlushed::log_io_completed`, translated line by line: on
`Err(e)` it logs the flush error and sends `Err(e)`; on `Ok(())` it
sends `Ok(self.log_io_id)`; in either case a failed send is logged and
otherwise ignored. -/
def LogFlushed.log_io_completed (self : LogFlushed E) (result : Except E Unit) :
    FlushOutcome E :=
  match result with
  | Except.error e =>
    let preLogs := [FlushLogEvent.flushError e self.log_io_id]
    let step := self.tx.send (Except.error e)
    match step.2 with
    | Except.ok _ => ⟨step.1, preLogs⟩
    | Except.error m => ⟨step.1, preLogs ++ [FlushLogEvent.sendFailed m]⟩
  | Except.ok _ =>
    let step := self.tx.send (Except.ok self.log_io_id)
    match step.2 with
    | Except.ok _ => ⟨step.1, []⟩
    | Except.error m => ⟨step.1, [FlushLogEvent.sendFailed m]⟩

/-- Trace events emitted by `LogApplied::completed`: `appliedUpto` is
the `tracing::debug!("LogApplied upto {}", self.last_log_id)` line,
`applyError` the error line on a failed apply, and `sendFailed` the
`tracing::error!("failed to send apply complete event, last_log_id:
{}", self.last_log_id)` line, which prints only the bound log id. -/
inductive ApplyLogEvent (L SE : Type) where
  | appliedUpto (id : L) : ApplyLogEvent L SE
  | applyError (e : SE) (id : L) : ApplyLogEvent L SE
  | sendFailed (id : L) : ApplyLogEvent L SE

/-- `LogApplied upto` is a debug line; the other two are error lines. -/
def ApplyLogEvent.level : ApplyLogEvent L SE → LogLevel
  | .appliedUpto _ => .debug
  | .applyError _ _ => .error
  | .sendFailed _ => .error

/-- Recognises the delivery-failure log line. -/
def ApplyLogEvent.isSendFailed : ApplyLogEvent L SE → Bool
  | .sendFailed _ => true
  | _ => false

/-- `LogApplied<C>`: a oneshot callback for completion of applying logs
to the state machine.  `L` stands for `LogId<C::NodeId>`, `R` for the
per-entry response type `C::R`, and `SE` for
`StorageIOError<C::NodeId>`. -/
structure LogApplied (L R SE : Type) where
  last_log_id : L
  tx : OneshotSender (Except SE (L × List R))

/-- `LogApplied::new`. -/
def LogApplied.new (last_log_id : L) (tx : OneshotSender (Except SE (L × List R))) :
    LogApplied L R SE :=
  ⟨last_log_id, tx⟩

/-- Observable outcome of one invocation of `completed`. -/
structure ApplyOutcome (L R SE : Type) where
  tx : OneshotSender (Except SE (L × List R))
  logs : List (ApplyLogEvent L SE)

/-- `LogApplied::completed`, translated line by line: on `Ok(x)` it
logs at debug level and sends `Ok((self.last_log_id, x))`; on `Err(e)`
it logs the apply error and sends `Err(e)`; in either case a failed
send is logged (naming only `last_log_id`) and otherwise ignored. -/
def LogApplied.completed (self : LogApplied L R SE) (result : Except SE (List R)) :
    ApplyOutcome L R SE :=
  match result with
  | Except.ok x =>
    let preLogs := [ApplyLogEvent.appliedUpto self.last_log_id]
    let resp := (self.last_log_id, x)
    let step := self.tx.send (Except.ok resp)
    match step.2 with
    | Except.ok _ => ⟨step.1, preLogs⟩
    | Except.error _ => ⟨step.1, preLogs ++ [ApplyLogEvent.sendFailed self.last_log_id]⟩
  | Except.error e =>
    let preLogs := [ApplyLogEvent.applyError e self.last_log_id]
    let step := self.tx.send (Except.error e)
    match step.2 with
    | Except.ok _ => ⟨step.1, preLogs⟩
    | Except.error _ => ⟨step.1, preLogs ++ [ApplyLogEvent.sendFailed self.last_log_id]⟩

/-- Modelled from the spec: the consensus-core state the frontier
updates act on — the current leadership epoch and the flushed-frontier
index within that epoch.  The corresponding code is outside the given
sources; the spec prescribes epoch-tagged monotonic-merge semantics. -/
structure FrontierState where
  currentEpoch : Nat
  flushedFrontier : Nat
deriving DecidableEq, Repr

/-- Modelled from the spec: compare-and-merge of a flush completion
into the frontier.  A completion from an epoch older than the current
one is rejected; one for the current epoch advances the frontier only
if its index is larger; anything else leaves the state unchanged. -/
def mergeCompletion (s : FrontierState) (c : LogIOId) : FrontierState :=
  if c.epoch < s.currentEpoch then s
  else if c.epoch = s.currentEpoch ∧ s.flushedFrontier < c.index then
    ⟨s.currentEpoch, c.index⟩
  else s

/-- Modelled from the spec: a sequence of completion notifications
merged into the frontier in arrival order. -/
def applyCompletions (s : FrontierState) (cs : List LogIOId) : FrontierState :=
  cs.foldl mergeCompletion s

/-- Modelled from the spec: one step of the frontier-update step
relation — either a completion notification is merged, or leadership
changes and a strictly newer epoch is installed with a fresh frontier. -/
inductive FrontierStep : FrontierState → FrontierState → Prop where
  | complete (s : FrontierState) (c : LogIOId) : FrontierStep s (mergeCompletion s c)
  | epochAdvance (s : FrontierState) (e : Nat) (h : s.currentEpoch < e) :
      FrontierStep s ⟨e, 0⟩

/-- A state is reachable when a chain of frontier steps leads to it. -/
def FrontierReachable (init s : FrontierState) : Prop :=
  Relation.ReflTransGen FrontierStep init s

/-- Helper: a send appends exactly its message to the attempt log. -/
theorem OneshotSender.send_attempts (tx : OneshotSender M) (m : M) :
    (tx.send m).1.attempts = tx.attempts ++ [m] := by
  unfold OneshotSender.send
  split <;> rfl

/-- Helper: merging a completion never changes the current epoch. -/
theorem mergeCompletion_currentEpoch (s : FrontierState) (c : LogIOId) :
    (mergeCompletion s c).currentEpoch = s.currentEpoch := by
  unfold mergeCompletion
  split
  · rfl
  · split <;> rfl

/-- Helper: merging a completion never lowers the flushed frontier. -/
theorem mergeCompletion_frontier_le (s : FrontierState) (c : LogIOId) :
    s.flushedFrontier ≤ (mergeCompletion s c).flushedFrontier := by
  unfold mergeCompletion
  split
  · exact le_refl _
  · split
    · next h => exact le_of_lt h.2
    · exact le_refl _

/-- C1: a single invocation of a completion handle — `log_io_completed`
for `LogFlushed`, `completed` for `LogApplied` — performs exactly one
send of exactly one terminal message on its bound oneshot channel,
whatever the input result.  Consumption of the handle (making a second
invocation impossible) is the Rust move semantics, modelled here by the
invocation consuming the handle and returning only an outcome record. -/
theorem completion_exactly_one_send :
    ∀ (E L R SE : Type) (hF : LogFlushed E) (rF : Except E Unit)
      (hA : LogApplied L R SE) (rA : Except SE (List R)),
      (hF.log_io_completed rF).tx.attempts.length = hF.tx.attempts.length + 1
      ∧ (hA.completed rA).tx.attempts.length = hA.tx.attempts.length + 1 := by
  intro E L R SE hF rF hA rA
  obtain ⟨idF, aliveF, attF, delF⟩ := hF
  obtain ⟨idA, aliveA, attA, delA⟩ := hA
  cases rF <;> cases rA <;> cases aliveF <;> cases aliveA <;>
    simp [LogFlushed.log_io_completed, LogApplied.completed, OneshotSender.send]

/-- C2: invoking a `LogFlushed` handle bound to `log_io_id = id` with
`Ok(())` sends exactly the message `Ok(id)` — the identity the handle
was constructed with, never a default or mutated value. -/
theorem flush_success_sends_bound_id :
    ∀ (E : Type) (id : LogIOId) (tx : OneshotSender (Except E LogIOId)),
      ((LogFlushed.new id tx).log_io_completed (Except.ok ())).tx.attempts
        = tx.attempts ++ [Except.ok id] := by
  intro E id tx
  obtain ⟨alive, att, del⟩ := tx
  cases alive <;> rfl

/-- C3: invoking a `LogApplied` handle bound to `last_log_id = last`
with `Ok(rs)` sends exactly `Ok((last, rs))` — the delivered response
list is the submitted list itself, hence of the same length, in the
same order, with every element unchanged. -/
theorem apply_success_sends_responses :
    ∀ (L R SE : Type) (last : L) (tx : OneshotSender (Except SE (L × List R)))
      (rs : List R),
      ((LogApplied.new last tx).completed (Except.ok rs)).tx.attempts
        = tx.attempts ++ [Except.ok (last, rs)] := by
  intro L R SE last tx rs
  obtain ⟨alive, att, del⟩ := tx
  cases alive <;> rfl

/-- C4: invoking a `LogFlushed` handle with `Err(e)` first emits an
error-level log line naming the bound `LogIOId` and `e`, then sends
`Err(e)` itself over the channel — exactly one send, never turned into
a success, never retried. -/
theorem flush_error_logged_and_forwarded :
    ∀ (E : Type) (id : LogIOId) (tx : OneshotSender (Except E LogIOId)) (e : E),
      ((LogFlushed.new id tx).log_io_completed (Except.error e)).tx.attempts
        = tx.attempts ++ [Except.error e]
      ∧ ((LogFlushed.new id tx).log_io_completed (Except.error e)).logs.head?
        = some (FlushLogEvent.flushError e id)
      ∧ FlushLogEvent.level (FlushLogEvent.flushError e id) = LogLevel.error := by
  intro E id tx e
  obtain ⟨alive, att, del⟩ := tx
  cases alive <;> exact ⟨rfl, rfl, rfl⟩

/-- C5: invoking a `LogApplied` handle with `Err(e)` first emits an
error-level log line naming the bound `last_log_id` and `e`, then sends
`Err(e)` itself over the channel — exactly one send, the unmodified
error, never retried by this layer. -/
theorem apply_error_logged_and_forwarded :
    ∀ (L R SE : Type) (last : L) (tx : OneshotSender (Except SE (L × List R)))
      (e : SE),
      ((LogApplied.new last tx).completed (Except.error e) :
          ApplyOutcome L R SE).tx.attempts
        = tx.attempts ++ [Except.error e]
      ∧ ((LogApplied.new last tx).completed (Except.error e) :
          ApplyOutcome L R SE).logs.head?
        = some (ApplyLogEvent.applyError e last)
      ∧ ApplyLogEvent.level (ApplyLogEvent.applyError e last : ApplyLogEvent L SE)
        = LogLevel.error := by
  intro L R SE last tx e
  obtain ⟨alive, att, del⟩ := tx
  cases alive <;> exact ⟨rfl, rfl, rfl⟩

/-- C6: invoking either completion handle when the channel receiver is
already dropped completes normally: nothing is delivered, the final log
line is the error-level delivery-failure event, and no error escapes —
the invocation is a total function whose outcome type carries no error
to the caller. -/
theorem dropped_receiver_is_harmless :
    ∀ (E L R SE : Type) (id : LogIOId) (last : L)
      (attF : List (Except E LogIOId)) (delF : List (Except E LogIOId))
      (rF : Except E Unit)
      (attA : List (Except SE (L × List R))) (delA : List (Except SE (L × List R)))
      (rA : Except SE (List R)),
      ((LogFlushed.new id ⟨false, attF, delF⟩).log_io_completed rF).tx.delivered
        = delF
      ∧ (((LogFlushed.new id ⟨false, attF, delF⟩).log_io_completed
            rF).logs.getLast?.map FlushLogEvent.isSendFailed) = some true
      ∧ (((LogFlushed.new id ⟨false, attF, delF⟩).log_io_completed
            rF).logs.getLast?.map FlushLogEvent.level) = some LogLevel.error
      ∧ ((LogApplied.new last ⟨false, attA, delA⟩).completed rA).tx.delivered
        = delA
      ∧ (((LogApplied.new last ⟨false, attA, delA⟩).completed
            rA).logs.getLast?.map ApplyLogEvent.isSendFailed) = some true
      ∧ (((LogApplied.new last ⟨false, attA, delA⟩).completed
            rA).logs.getLast?.map ApplyLogEvent.level) = some LogLevel.error := by
  intro E L R SE id last attF delF rF attA delA rA
  cases rF <;> cases rA <;>
    exact ⟨rfl, rfl, rfl, rfl, rfl, rfl⟩

/-- C9: `completed` performs no validation of the response list: for
every list, the empty list included, it forwards `Ok((last, rs))`
unchanged; no relation between the list length and any batch size is
checked by this layer. -/
theorem completed_forwards_without_validation :
    ∀ (L R SE : Type) (last : L) (tx : OneshotSender (Except SE (L × List R)))
      (rs : List R),
      ((LogApplied.new last tx).completed (Except.ok rs)).tx.attempts
        = tx.attempts ++ [Except.ok (last, rs)]
      ∧ ((LogApplied.new last tx).completed (Except.ok ([] : List R))).tx.attempts
        = tx.attempts ++ [Except.ok (last, ([] : List R))] := by
  intro L R SE last tx rs
  obtain ⟨alive, att, del⟩ := tx
  cases alive <;> exact ⟨rfl, rfl⟩

/-- C10: on the flush failure path the channel message is `Err(e)` and
nothing else: it does not depend on the bound `LogIOId` at all, so two
handles with different ids produce identical channel traffic, and the
id appears only in the log line. -/
theorem flush_error_message_lacks_id :
    ∀ (E : Type) (id idOther : LogIOId) (tx : OneshotSender (Except E LogIOId))
      (e : E),
      ((LogFlushed.new id tx).log_io_completed (Except.error e)).tx.attempts
        = ((LogFlushed.new idOther tx).log_io_completed (Except.error e)).tx.attempts
      ∧ ((LogFlushed.new id tx).log_io_completed (Except.error e)).tx.attempts
        = tx.attempts ++ [Except.error e]
      ∧ ((LogFlushed.new id tx).log_io_completed (Except.error e)).logs.head?
        = some (FlushLogEvent.flushError e id) := by
  intro E id idOther tx e
  obtain ⟨alive, att, del⟩ := tx
  cases alive <;> exact ⟨rfl, rfl, rfl⟩

/-- C7: the comparison on `LogIOId` is a strict total order that is
lexicographic on `(epoch, index)`: a smaller epoch wins regardless of
index, equal epochs compare by index; the order is irreflexive,
transitive, and total (trichotomy). -/
theorem logIOId_lt_lexicographic_total_order :
    (∀ a b : LogIOId, a.epoch < b.epoch → LogIOId.lt a b)
    ∧ (∀ a b : LogIOId, a.epoch = b.epoch → (LogIOId.lt a b ↔ a.index < b.index))
    ∧ (∀ a : LogIOId, ¬ LogIOId.lt a a)
    ∧ (∀ a b c : LogIOId, LogIOId.lt a b → LogIOId.lt b c → LogIOId.lt a c)
    ∧ (∀ a b : LogIOId, LogIOId.lt a b ∨ a = b ∨ LogIOId.lt b a) := by
  refine ⟨?_, ?_, ?_, ?_, ?_⟩
  · intro a b h
    exact Or.inl h
  · intro a b h
    obtain ⟨ae, ai⟩ := a
    obtain ⟨be, bi⟩ := b
    simp only [LogIOId.lt] at *
    omega
  · intro a h
    obtain ⟨ae, ai⟩ := a
    simp only [LogIOId.lt] at h
    omega
  · intro a b c hab hbc
    obtain ⟨ae, ai⟩ := a
    obtain ⟨be, bi⟩ := b
    obtain ⟨ce, ci⟩ := c
    simp only [LogIOId.lt] at *
    omega
  · intro a b
    obtain ⟨ae, ai⟩ := a
    obtain ⟨be, bi⟩ := b
    simp only [LogIOId.lt, LogIOId.mk.injEq]
    omega

/-- Witness for C7 at concrete inputs: `(1, 9) < (2, 0)` by the
epoch-dominates clause, and for equal epoch 3 the order follows the
index. -/
theorem logIOId_lt_lexicographic_total_order_witness :
    LogIOId.lt ⟨1, 9⟩ ⟨2, 0⟩ ∧ LogIOId.lt ⟨3, 4⟩ ⟨3, 7⟩ :=
  ⟨logIOId_lt_lexicographic_total_order.1 ⟨1, 9⟩ ⟨2, 0⟩ (by decide),
   (logIOId_lt_lexicographic_total_order.2.1 ⟨3, 4⟩ ⟨3, 7⟩ rfl).mpr (by decide)⟩

/-- C8: in every reachable state of the frontier-update step relation,
a completion stamped with an epoch older than the current one leaves
the state unchanged (it never advances the watermark), and along any
sequence of merged completions the current epoch is preserved and the
flushed-frontier index is non-decreasing. -/
theorem frontier_stale_rejected_and_monotone :
    (∀ init s : FrontierState, FrontierReachable init s →
       ∀ c : LogIOId, c.epoch < s.currentEpoch → mergeCompletion s c = s)
    ∧ (∀ (s : FrontierState) (cs : List LogIOId),
        (applyCompletions s cs).currentEpoch = s.currentEpoch
        ∧ s.flushedFrontier ≤ (applyCompletions s cs).flushedFrontier) := by
  constructor
  · intro init s _ c h
    unfold mergeCompletion
    rw [if_pos h]
  · intro s cs
    induction cs generalizing s with
    | nil => exact ⟨rfl, le_refl _⟩
    | cons c rest ih =>
      obtain ⟨he, hf⟩ := ih (mergeCompletion s c)
      exact ⟨he.trans (mergeCompletion_currentEpoch s c),
             le_trans (mergeCompletion_frontier_le s c) hf⟩

/-- Witness for C8 at concrete inputs: in the (trivially reachable)
state with epoch 2 and frontier 0, a stale epoch-1 completion with a
huge index changes nothing; and merging two completions in order keeps
the epoch and raises the frontier monotonically. -/
theorem frontier_stale_rejected_and_monotone_witness :
    mergeCompletion ⟨2, 0⟩ ⟨1, 100⟩ = ⟨2, 0⟩
    ∧ ((applyCompletions ⟨2, 3⟩ [⟨2, 5⟩, ⟨2, 4⟩]).currentEpoch = 2
       ∧ (3 : Nat) ≤ (applyCompletions ⟨2, 3⟩ [⟨2, 5⟩, ⟨2, 4⟩]).flushedFrontier) :=
  ⟨frontier_stale_rejected_and_monotone.1 ⟨2, 0⟩ ⟨2, 0⟩ Relation.ReflTransGen.refl
     ⟨1, 100⟩ (by decide),
   frontier_stale_rejected_and_monotone.2 ⟨2, 3⟩ [⟨2, 5⟩, ⟨2, 4⟩]⟩
